import Mathlib

/-!
# DiskTools: FAT12 floppy image writer and MBR partition table reader

A shallow embedding of `writeimage/writeimage.cpp` and `PartitionInfo/PartitionInfo.cpp`.

* Bytes (`uint8_t`) and sizes are natural numbers; `unsigned int` arithmetic is reduced
  modulo `2 ^ 32` and `uint64_t` arithmetic modulo `2 ^ 64`.
* A `std::vector<uint8_t>` is a list of bytes plus a flag recording whether some store
  addressed an element outside of the vector (undefined behaviour in C++).
* Memory allocation is assumed to succeed.
-/

namespace WriteImage

/-! ## Machine arithmetic -/

/-- Product of two `unsigned int` values (wraps modulo `2 ^ 32`). -/
def u32_mul (a b : Nat) : Nat := (a * b) % 2 ^ 32

/-- Difference of two `unsigned int` values (wraps modulo `2 ^ 32`). -/
def u32_sub (a b : Nat) : Nat := (a + (2 ^ 32 - b % 2 ^ 32)) % 2 ^ 32

/-! ## `std::vector<uint8_t>` -/

/-- A byte vector: its elements, and whether a store was ever attempted outside of it. -/
structure ByteVector where
  data : List Nat
  out_of_range : Bool
deriving DecidableEq

/-- The constructor `std::vector<uint8_t> v(n)`: `n` value-initialised (zero) bytes. -/
def vector_new (n : Nat) : ByteVector := ⟨List.replicate n 0, false⟩

/-- The store `v[i] = value`. A store outside of the vector leaves the elements alone and
is recorded in `out_of_range`. -/
def vector_store (v : ByteVector) (i value : Nat) : ByteVector :=
  if i < v.data.length then ⟨v.data.set i value, v.out_of_range⟩ else ⟨v.data, true⟩

/-! ## The builders of `writeimage.cpp` -/

/-- The constant `bytes_per_sector` (line 33). -/
def bytes_per_sector : Nat := 512

/-- The function `get_default_boot_sector` (lines 34-43). -/
def get_default_boot_sector : ByteVector :=
  let boot_sector := vector_new bytes_per_sector
  let boot_sector := vector_store boot_sector (u32_sub bytes_per_sector 2) 0x55
  let boot_sector := vector_store boot_sector (u32_sub bytes_per_sector 1) 0xaa
  boot_sector

/-- The function `get_empty_file_allocation_table` (lines 45-54). -/
def get_empty_file_allocation_table (sector_count : Nat) : ByteVector :=
  let file_allocation_table := vector_new (u32_mul sector_count bytes_per_sector)
  let file_allocation_table := vector_store file_allocation_table 0 0xf0
  let file_allocation_table := vector_store file_allocation_table 1 0xff
  let file_allocation_table := vector_store file_allocation_table 2 0xff
  file_allocation_table

/-- The function `get_empty_root_directory` (lines 56-61). -/
def get_empty_root_directory (sector_count : Nat) : ByteVector :=
  let root_directory := vector_new (u32_mul sector_count bytes_per_sector)
  root_directory

/-! ## Standard algorithms used by `output_boot_sector` -/

/-- A destination vector together with an output iterator into it (an element offset). -/
structure Cursor where
  dest : ByteVector
  it : Nat
deriving DecidableEq

/-- The algorithm `std::copy(first, last, it)`: stores the source bytes one by one through the
output iterator and returns the advanced iterator. -/
def std_copy : List Nat → Cursor → Cursor
  | [], c => c
  | b :: rest, c => std_copy rest ⟨vector_store c.dest c.it b, c.it + 1⟩

/-- The loop `for (; n > 0; --n, ++it) *it = value` behind `std::fill`. -/
def std_fill_loop : Nat → ByteVector → Nat → Nat → ByteVector
  | 0, dest, _, _ => dest
  | n + 1, dest, it, value => std_fill_loop n (vector_store dest it value) (it + 1) value

/-- The algorithm `std::fill(first, last, value)` on offsets `first`, `last` of `dest`: the loop
body runs `last - first` times. -/
def std_fill (dest : ByteVector) (first last value : Nat) : ByteVector :=
  std_fill_loop (last - first) dest first value

/-- The call `stream.read(s, count)` of `std::basic_istream<uint8_t>`: extracts bytes from the
stream into successive elements of the buffer, starting at offset `it`, until `count` bytes
were stored or the stream is exhausted. -/
def basic_istream_read : List Nat → ByteVector → Nat → Nat → ByteVector
  | _, s, _, 0 => s
  | [], s, _, _ + 1 => s
  | b :: rest, s, it, count + 1 => basic_istream_read rest (vector_store s it b) (it + 1) count

/-! ## `output_boot_sector` -/

/-- Lines 111-115 of `output_boot_sector`: when a boot sector file was named with `-b=`, its
bytes are read over the start of `boot_sector`. The argument is `none` when no file was named,
and otherwise the contents of the file (no bytes for a file that cannot be opened). -/
def load_boot_sector (boot_sector_file : Option (List Nat)) (boot_sector : ByteVector) :
    ByteVector :=
  match boot_sector_file with
  | none => boot_sector
  | some contents => basic_istream_read contents boot_sector 0 boot_sector.data.length

/-- Lines 117-127 of `output_boot_sector`: the disk image is allocated with the size given by
the geometry, the regions are copied into it one after the other and the rest is filled with
`0xf6`. The three regions and the constants `sides`, `tracks_per_side`, `sectors_per_track` of
lines 117-119 are arguments here; `output_boot_sector` passes 2, 80 and 18. -/
def assemble_disk_image (boot_sector file_allocation_table root_directory : List Nat)
    (sides tracks_per_side sectors_per_track : Nat) : ByteVector :=
  let disk_image := vector_new
    (u32_mul (u32_mul (u32_mul bytes_per_sector sides) tracks_per_side) sectors_per_track)
  let iterator : Cursor := ⟨disk_image, 0⟩
  let iterator := std_copy boot_sector iterator
  let iterator := std_copy file_allocation_table iterator
  let iterator := std_copy file_allocation_table iterator
  let iterator := std_copy root_directory iterator
  std_fill iterator.dest iterator.it iterator.dest.data.length 0xf6

end WriteImage

namespace PartitionInfo

/-! ## `PartitionInfo.cpp` -/

/-- Modelled from the spec: the constant `partition_table_entry_count` is declared in
`DiskTools/DirectRead.h`, which is not among the sources; the spec gives 4 entries. -/
def partition_table_entry_count : Nat := 4

/-- Modelled from the spec: `sizeof(DiskTools::Partition_table_entry)`; the type is declared in
`DiskTools/DirectRead.h`, which is not among the sources; the spec gives 16 bytes. -/
def sizeof_Partition_table_entry : Nat := 16

/-- Difference of two `size_t` values of the given width. -/
def size_t_sub (bits a b : Nat) : Nat := (a + (2 ^ bits - b % 2 ^ bits)) % 2 ^ bits

/-- Product of two `size_t` values of the given width. -/
def size_t_mul (bits a b : Nat) : Nat := (a * b) % 2 ^ bits

/-- Line 67 of `_tmain`: `sector_size - 2` is an `unsigned int`, the product with `sizeof` and
the second subtraction are carried out in `size_t` (of `bits` bits), and the result is converted
to `unsigned int`. -/
def table_start (bits sector_size : Nat) : Nat :=
  (size_t_sub bits (WriteImage.u32_sub sector_size 2)
    (size_t_mul bits sizeof_Partition_table_entry partition_table_entry_count)) % 2 ^ 32

/-- Offsets into the sector buffer of the bytes of the object `entry[index]`, where `entry`
points to offset `start` of the buffer. -/
def entry_addresses (start index : Nat) : List Nat :=
  (List.range sizeof_Partition_table_entry).map
    (fun k => start + sizeof_Partition_table_entry * index + k)

/-- The bytes of `entry[index]` as read from the buffer; `none` stands for a read outside of the
buffer. -/
def entry_bytes (buffer : List Nat) (start index : Nat) : List (Option Nat) :=
  (entry_addresses start index).map (fun a => buffer[a]?)

/-- Line 20 of `output_partition_table_info`: the product is computed in `uint64_t`. -/
def part_size (sectors sector_size : Nat) : Nat := (sectors * sector_size) % 2 ^ 64

/-- What `output_partition_table_info` prints for one entry: its index, its fields (here the
bytes they are read from) and the size of the partition. -/
structure Report where
  index : Nat
  entry : List (Option Nat)
  part_size : Nat
deriving DecidableEq

/-- The loop of `output_partition_table_info` (lines 18-40), from `index` on. The layout of
`Partition_table_entry` is not among the sources: `sectors` gives the value of the field
`sectors` of an entry from its bytes. -/
def output_partition_table_info_loop (sectors : List (Option Nat) → Nat)
    (entry : Nat → List (Option Nat)) (sector_size index : Nat) : List Report :=
  if index < partition_table_entry_count then
    ⟨index, entry index, part_size (sectors (entry index)) sector_size⟩
      :: output_partition_table_info_loop sectors entry sector_size (index + 1)
  else []
termination_by partition_table_entry_count - index

/-- The function `output_partition_table_info` (lines 14-41); the result is what is printed. -/
def output_partition_table_info (sectors : List (Option Nat) → Nat)
    (entry : Nat → List (Option Nat)) (sector_size : Nat) : List Report :=
  output_partition_table_info_loop sectors entry sector_size 0

/-- Messages written to `stderr` by `_tmain`. -/
inductive Diagnostic where
  | sector_size_smaller
  | error_opening_device
  | buffer_too_small
  | error_reading_disk
  | unexpected_error
deriving DecidableEq

/-- The Windows SDK macro `__HRESULT_FROM_WIN32` on a 32-bit value, as a signed 32-bit value:
`(HRESULT)(x) <= 0 ? (HRESULT)(x) : (HRESULT)((x & 0xFFFF) | (FACILITY_WIN32 << 16) | 0x80000000)`
with `FACILITY_WIN32 = 7`. -/
def HRESULT_FROM_WIN32 (x : Nat) : Int :=
  if x = 0 then 0
  else if 2 ^ 31 ≤ x then (x : Int) - 2 ^ 32
  else ((x % 65536 + 7 * 65536 + 2 ^ 31 : Nat) : Int) - 2 ^ 32

/-- The Windows SDK constant `ERROR_OPEN_FAILED`. -/
def ERROR_OPEN_FAILED : Nat := 110

/-- The Windows SDK constant `ERROR_READ_FAULT`. -/
def ERROR_READ_FAULT : Nat := 30

/-- The Windows SDK constant `TYPE_E_BUFFERTOOSMALL` (`0x80028016`), as a signed 32-bit value. -/
def TYPE_E_BUFFERTOOSMALL : Int := 0x80028016 - 2 ^ 32

/-- The result of running the program: exit code, entries printed, message on `stderr`. -/
structure Outcome where
  error_level : Int
  printed : List Report
  diagnostic : Option Diagnostic
deriving DecidableEq

/-- The function `_tmain` (lines 46-99). The call of `DiskTools::read_sector_from_disk` is
outside of the program: `hr`, `bytes_to_read` and `buffer` are what it returned and left in its
two output arguments. `bits` is the width of `size_t`. -/
def _tmain (bits : Nat) (sectors : List (Option Nat) → Nat)
    (hr : Int) (bytes_to_read : Nat) (buffer : List Nat) : Outcome :=
  let sector_size := 512
  if 0 ≤ hr then
    if sector_size = bytes_to_read then
      let table_start := table_start bits sector_size
      let entries := entry_bytes buffer table_start
      ⟨0, output_partition_table_info sectors entries sector_size, none⟩
    else
      ⟨1, [], some Diagnostic.sector_size_smaller⟩
  else
    if HRESULT_FROM_WIN32 ERROR_OPEN_FAILED = hr then
      ⟨1, [], some Diagnostic.error_opening_device⟩
    else if TYPE_E_BUFFERTOOSMALL = hr then
      ⟨1, [], some Diagnostic.buffer_too_small⟩
    else if HRESULT_FROM_WIN32 ERROR_READ_FAULT = hr then
      ⟨1, [], some Diagnostic.error_reading_disk⟩
    else
      ⟨1, [], some Diagnostic.unexpected_error⟩

end PartitionInfo

namespace WriteImage

/-! ## Lemmas on stores, copies and fills -/

theorem vector_store_splice (pre post : List Nat) (x b : Nat) (f : Bool) :
    vector_store ⟨pre ++ x :: post, f⟩ pre.length b = ⟨pre ++ b :: post, f⟩ := by
  simp [vector_store]

theorem std_copy_splice (src : List Nat) :
    ∀ (pre mid post : List Nat) (f : Bool), mid.length = src.length →
      std_copy src ⟨⟨pre ++ mid ++ post, f⟩, pre.length⟩
        = ⟨⟨pre ++ src ++ post, f⟩, pre.length + src.length⟩ := by
  induction src with
  | nil =>
    intro pre mid post f h
    have hm : mid = [] := List.length_eq_zero.mp h
    subst hm
    simp [std_copy]
  | cons b rest ih =>
    intro pre mid post f h
    cases mid with
    | nil => simp at h
    | cons x mid =>
      have hl : mid.length = rest.length := by simpa using h
      have hs : vector_store ⟨pre ++ x :: mid ++ post, f⟩ pre.length b
          = ⟨(pre ++ [b]) ++ mid ++ post, f⟩ := by
        have := vector_store_splice pre (mid ++ post) x b f
        simpa using this
      have hi := ih (pre ++ [b]) mid post f hl
      rw [std_copy]
      simp only [hs]
      have hlen : (pre ++ [b]).length = pre.length + 1 := by simp
      rw [hlen] at hi
      rw [hi]
      simp [Nat.add_assoc, Nat.add_comm 1]

theorem std_fill_loop_splice (n : Nat) :
    ∀ (pre mid post : List Nat) (f : Bool) (value : Nat), mid.length = n →
      std_fill_loop n ⟨pre ++ mid ++ post, f⟩ pre.length value
        = ⟨pre ++ List.replicate n value ++ post, f⟩ := by
  induction n with
  | zero =>
    intro pre mid post f value h
    have hm : mid = [] := List.length_eq_zero.mp h
    subst hm
    simp [std_fill_loop]
  | succ n ih =>
    intro pre mid post f value h
    cases mid with
    | nil => simp at h
    | cons x mid =>
      have hl : mid.length = n := by simpa using h
      have hs : vector_store ⟨pre ++ x :: mid ++ post, f⟩ pre.length value
          = ⟨(pre ++ [value]) ++ mid ++ post, f⟩ := by
        have := vector_store_splice pre (mid ++ post) x value f
        simpa using this
      have hi := ih (pre ++ [value]) mid post f value hl
      rw [std_fill_loop]
      simp only [hs]
      have hlen : (pre ++ [value]).length = pre.length + 1 := by simp
      rw [hlen] at hi
      rw [hi]
      simp [List.replicate_succ]

theorem basic_istream_read_splice (count : Nat) :
    ∀ (src pre mid post : List Nat) (f : Bool), mid.length = count →
      basic_istream_read src ⟨pre ++ mid ++ post, f⟩ pre.length count
        = ⟨pre ++ src.take count ++ mid.drop (min count src.length) ++ post, f⟩ := by
  induction count with
  | zero =>
    intro src pre mid post f h
    have hm : mid = [] := List.length_eq_zero.mp h
    subst hm
    simp [basic_istream_read]
  | succ n ih =>
    intro src pre mid post f h
    cases src with
    | nil => simp [basic_istream_read]
    | cons b rest =>
      cases mid with
      | nil => simp at h
      | cons x mid =>
        have hl : mid.length = n := by simpa using h
        have hs : vector_store ⟨pre ++ x :: mid ++ post, f⟩ pre.length b
            = ⟨(pre ++ [b]) ++ mid ++ post, f⟩ := by
          have := vector_store_splice pre (mid ++ post) x b f
          simpa using this
        have hi := ih rest (pre ++ [b]) mid post f hl
        rw [basic_istream_read]
        simp only [hs]
        have hlen : (pre ++ [b]).length = pre.length + 1 := by simp
        rw [hlen] at hi
        rw [hi]
        simp [Nat.succ_min_succ]

theorem zeros_split (k n : Nat) (h : k ≤ n) :
    List.replicate n 0 = List.replicate k 0 ++ List.replicate (n - k) 0 := by
  rw [← List.replicate_add]
  congr 1
  omega

theorem std_copy_zeros (src pre : List Nat) (n : Nat) (f : Bool) (h : src.length ≤ n) :
    std_copy src ⟨⟨pre ++ List.replicate n 0, f⟩, pre.length⟩
      = ⟨⟨(pre ++ src) ++ List.replicate (n - src.length) 0, f⟩, (pre ++ src).length⟩ := by
  have hc := std_copy_splice src pre (List.replicate src.length 0)
    (List.replicate (n - src.length) 0) f (by simp)
  rw [zeros_split src.length n h, ← List.append_assoc, hc, List.length_append]

theorem std_fill_zeros (pre : List Nat) (m : Nat) (f : Bool) (value : Nat) :
    std_fill ⟨pre ++ List.replicate m 0, f⟩ pre.length (pre ++ List.replicate m 0).length value
      = ⟨pre ++ List.replicate m value, f⟩ := by
  have hf := std_fill_loop_splice m pre (List.replicate m 0) [] f value (by simp)
  have hm : (pre ++ List.replicate m 0).length - pre.length = m := by simp
  simp only [List.append_nil] at hf
  rw [std_fill, hm, hf]

/-- When the regions fit into the image, `assemble_disk_image` lays them out one after the
other and pads the rest with `0xf6`, and no store leaves the image. -/
theorem assemble_disk_image_fit (B F R : List Nat) (sides tracks spt total : Nat)
    (htotal : u32_mul (u32_mul (u32_mul bytes_per_sector sides) tracks) spt = total)
    (hfit : B.length + F.length + F.length + R.length ≤ total) :
    assemble_disk_image B F R sides tracks spt
      = ⟨B ++ F ++ F ++ R
          ++ List.replicate (total - (B.length + F.length + F.length + R.length)) 0xf6,
         false⟩ := by
  have h0 : vector_new total = ⟨([] : List Nat) ++ List.replicate total 0, false⟩ := by
    simp [vector_new]
  have hB : std_copy B ⟨⟨([] : List Nat) ++ List.replicate total 0, false⟩, 0⟩
      = ⟨⟨([] ++ B) ++ List.replicate (total - B.length) 0, false⟩, ([] ++ B).length⟩ :=
    std_copy_zeros B [] total false (by omega)
  simp only [assemble_disk_image, htotal, h0]
  rw [hB]
  rw [std_copy_zeros F _ _ false (by omega)]
  rw [std_copy_zeros F _ _ false (by omega)]
  rw [std_copy_zeros R _ _ false (by omega)]
  rw [std_fill_zeros]
  simp only [List.nil_append]
  have hpad : total - B.length - F.length - F.length - R.length
      = total - (B.length + F.length + F.length + R.length) := by omega
  rw [hpad]

/-- The product `sector_count * bytes_per_sector` does not wrap below `2 ^ 23` sectors. -/
theorem u32_mul_bytes_per_sector (sector_count : Nat) (h : sector_count < 2 ^ 23) :
    u32_mul sector_count bytes_per_sector = sector_count * 512 := by
  unfold u32_mul bytes_per_sector
  apply Nat.mod_eq_of_lt
  omega

/-- The three marker stores on a zeroed vector of at least three bytes. -/
theorem marker_stores (n : Nat) (h : 3 ≤ n) :
    vector_store (vector_store (vector_store (vector_new n) 0 0xf0) 1 0xff) 2 0xff
      = ⟨0xf0 :: 0xff :: 0xff :: List.replicate (n - 3) 0, false⟩ := by
  obtain ⟨m, rfl⟩ : ∃ m, n = m + 3 := ⟨n - 3, by omega⟩
  simp [vector_new, vector_store, List.replicate_succ]

theorem get_empty_file_allocation_table_eq (sector_count : Nat)
    (h1 : 1 ≤ sector_count) (h2 : sector_count < 2 ^ 23) :
    get_empty_file_allocation_table sector_count
      = ⟨0xf0 :: 0xff :: 0xff :: List.replicate (sector_count * 512 - 3) 0, false⟩ := by
  unfold get_empty_file_allocation_table
  simp only [u32_mul_bytes_per_sector sector_count h2]
  exact marker_stores (sector_count * 512) (by omega)

theorem get_empty_root_directory_eq (sector_count : Nat) (h : sector_count < 2 ^ 23) :
    get_empty_root_directory sector_count = ⟨List.replicate (sector_count * 512) 0, false⟩ := by
  unfold get_empty_root_directory
  simp only [u32_mul_bytes_per_sector sector_count h, vector_new]

theorem get_default_boot_sector_eq :
    get_default_boot_sector = ⟨List.replicate 510 0 ++ [0x55, 0xaa], false⟩ := by
  have h2 : u32_sub bytes_per_sector 2 = (List.replicate 510 0).length := by
    rw [List.length_replicate]
    decide
  have h1 : u32_sub bytes_per_sector 1 = (List.replicate 510 0 ++ [0x55]).length := by
    rw [List.length_append, List.length_replicate, List.length_singleton]
    decide
  have hn : vector_new bytes_per_sector = ⟨List.replicate 510 0 ++ 0 :: [0], false⟩ := by
    have := zeros_split 510 512 (by omega)
    simp only [vector_new, bytes_per_sector, this]
    rfl
  have ha := vector_store_splice (List.replicate 510 0) [0] 0 0x55 false
  have hb := vector_store_splice (List.replicate 510 0 ++ [0x55]) [] 0 0xaa false
  simp only [List.append_assoc, List.singleton_append] at hb
  unfold get_default_boot_sector
  simp only [hn, h2, ha]
  simp only [h1, List.append_assoc, List.singleton_append, hb]

end WriteImage

namespace PartitionInfo

theorem table_start_512 (bits : Nat) (h : bits = 32 ∨ bits = 64) : table_start bits 512 = 446 := by
  rcases h with rfl | rfl <;> decide

theorem output_partition_table_info_eq (sectors : List (Option Nat) → Nat)
    (entry : Nat → List (Option Nat)) (sector_size : Nat) :
    output_partition_table_info sectors entry sector_size
      = [⟨0, entry 0, part_size (sectors (entry 0)) sector_size⟩,
         ⟨1, entry 1, part_size (sectors (entry 1)) sector_size⟩,
         ⟨2, entry 2, part_size (sectors (entry 2)) sector_size⟩,
         ⟨3, entry 3, part_size (sectors (entry 3)) sector_size⟩] := by
  unfold output_partition_table_info
  rw [output_partition_table_info_loop, output_partition_table_info_loop,
    output_partition_table_info_loop, output_partition_table_info_loop,
    output_partition_table_info_loop]
  simp [partition_table_entry_count]

end PartitionInfo

namespace WriteImage

/-! ## The image writer: claims -/

theorem layout_slices (B F R P img : List Nat) (h : img = B ++ F ++ F ++ R ++ P) :
    img.take B.length = B ∧
    (img.drop B.length).take F.length = F ∧
    (img.drop (B.length + F.length)).take F.length = F ∧
    (img.drop (B.length + F.length + F.length)).take R.length = R ∧
    img.drop (B.length + F.length + F.length + R.length) = P := by
  subst h
  have d1 : (B ++ F ++ F ++ R ++ P).drop B.length = F ++ F ++ R ++ P := by
    simp only [List.append_assoc]
    exact List.drop_left _ _
  have d2 : (B ++ F ++ F ++ R ++ P).drop (B.length + F.length) = F ++ R ++ P := by
    rw [← List.drop_drop, d1]
    simp only [List.append_assoc]
    exact List.drop_left _ _
  have d3 : (B ++ F ++ F ++ R ++ P).drop (B.length + F.length + F.length) = R ++ P := by
    rw [← List.drop_drop, d2]
    simp only [List.append_assoc]
    exact List.drop_left _ _
  have d4 : (B ++ F ++ F ++ R ++ P).drop (B.length + F.length + F.length + R.length) = P := by
    rw [← List.drop_drop, d3]
    exact List.drop_left _ _
  refine ⟨?_, ?_, ?_, ?_, d4⟩
  · simp only [List.append_assoc]
    exact List.take_left _ _
  · rw [d1]
    simp only [List.append_assoc]
    exact List.take_left _ _
  · rw [d2]
    simp only [List.append_assoc]
    exact List.take_left _ _
  · rw [d3]
    exact List.take_left _ _

theorem file_allocation_table_9 :
    (get_empty_file_allocation_table 9).data = 0xf0 :: 0xff :: 0xff :: List.replicate 4605 0 := by
  rw [get_empty_file_allocation_table_eq 9 (by decide) (by decide)]

theorem file_allocation_table_9_length : (get_empty_file_allocation_table 9).data.length = 4608 := by
  rw [file_allocation_table_9]
  simp only [List.length_cons, List.length_replicate]

theorem root_directory_14 : (get_empty_root_directory 14).data = List.replicate 7168 0 := by
  rw [get_empty_root_directory_eq 14 (by decide)]

theorem root_directory_14_length : (get_empty_root_directory 14).data.length = 7168 := by
  rw [root_directory_14, List.length_replicate]

/-- The image built from a 512-byte boot sector and the two empty regions of
`output_boot_sector`, with the geometry 2 x 80 x 18. -/
theorem assemble_default (B : List Nat) (hB : B.length = 512) :
    assemble_disk_image B (get_empty_file_allocation_table 9).data
        (get_empty_root_directory 14).data 2 80 18
      = ⟨B ++ (get_empty_file_allocation_table 9).data ++ (get_empty_file_allocation_table 9).data
          ++ (get_empty_root_directory 14).data ++ List.replicate 1457664 0xf6, false⟩ := by
  have h := assemble_disk_image_fit B (get_empty_file_allocation_table 9).data
    (get_empty_root_directory 14).data 2 80 18 1474560 (by decide)
    (by rw [hB, file_allocation_table_9_length, root_directory_14_length]; decide)
  rw [hB, file_allocation_table_9_length, root_directory_14_length] at h
  exact h

/-- C1: for every 512-byte boot sector `B`, the image assembled by `output_boot_sector` from `B`,
the empty table `F = get_empty_file_allocation_table(9)` (4608 bytes) and the empty root
directory `R = get_empty_root_directory(14)` (7168 zero bytes) with the geometry 2 x 80 x 18 x 512
has exactly 1,474,560 bytes and is `B ++ F ++ F ++ R` followed by 1,457,664 bytes `0xf6`: bytes
0..511 are `B`, bytes 512..5119 and 5120..9727 are `F`, bytes 9728..16895 are `R`, and all bytes
from 16896 on are `0xf6`; no store leaves the image. -/
theorem output_boot_sector_image_layout (B : List Nat) (hB : B.length = 512) :
    (get_empty_file_allocation_table 9).data.length = 4608 ∧
    (get_empty_root_directory 14).data = List.replicate 7168 0 ∧
    (assemble_disk_image B (get_empty_file_allocation_table 9).data
        (get_empty_root_directory 14).data 2 80 18).out_of_range = false ∧
    (assemble_disk_image B (get_empty_file_allocation_table 9).data
        (get_empty_root_directory 14).data 2 80 18).data.length = 1474560 ∧
    (assemble_disk_image B (get_empty_file_allocation_table 9).data
        (get_empty_root_directory 14).data 2 80 18).data
      = B ++ (get_empty_file_allocation_table 9).data ++ (get_empty_file_allocation_table 9).data
          ++ (get_empty_root_directory 14).data ++ List.replicate 1457664 0xf6 ∧
    (assemble_disk_image B (get_empty_file_allocation_table 9).data
        (get_empty_root_directory 14).data 2 80 18).data.take 512 = B ∧
    ((assemble_disk_image B (get_empty_file_allocation_table 9).data
        (get_empty_root_directory 14).data 2 80 18).data.drop 512).take 4608
      = (get_empty_file_allocation_table 9).data ∧
    ((assemble_disk_image B (get_empty_file_allocation_table 9).data
        (get_empty_root_directory 14).data 2 80 18).data.drop 5120).take 4608
      = (get_empty_file_allocation_table 9).data ∧
    ((assemble_disk_image B (get_empty_file_allocation_table 9).data
        (get_empty_root_directory 14).data 2 80 18).data.drop 9728).take 7168
      = List.replicate 7168 0 ∧
    (assemble_disk_image B (get_empty_file_allocation_table 9).data
        (get_empty_root_directory 14).data 2 80 18).data.drop 16896
      = List.replicate 1457664 0xf6 := by
  have hF := file_allocation_table_9_length
  have hR := root_directory_14_length
  have himg := assemble_default B hB
  have hs := layout_slices B (get_empty_file_allocation_table 9).data
    (get_empty_root_directory 14).data (List.replicate 1457664 0xf6) _ rfl
  rw [hB, hF, hR] at hs
  rw [himg]
  refine ⟨hF, root_directory_14, rfl, ?_, rfl, hs.1, hs.2.1, hs.2.2.1, ?_, hs.2.2.2.2⟩
  · simp only [List.length_append, hB, hF, hR, List.length_replicate]
  · rw [← root_directory_14]
    exact hs.2.2.2.1

/-- C1 at the boot sector of 512 bytes `0x90`. -/
theorem output_boot_sector_image_layout_witness :
    (List.replicate 512 0x90).length = 512 ∧
    (assemble_disk_image (List.replicate 512 0x90) (get_empty_file_allocation_table 9).data
        (get_empty_root_directory 14).data 2 80 18).data.length = 1474560 :=
  ⟨List.length_replicate 512 0x90,
    (output_boot_sector_image_layout (List.replicate 512 0x90)
      (List.length_replicate 512 0x90)).2.2.2.1⟩

/-- C3: for every `sector_count` with `1 <= sector_count < 2^23`,
`get_empty_file_allocation_table(sector_count)` is a buffer of exactly `sector_count * 512`
bytes whose first three bytes are `0xF0, 0xFF, 0xFF` and whose other bytes are all zero (no
store leaves the buffer); in particular the table for 9 sectors has 4608 bytes. -/
theorem get_empty_file_allocation_table_shape (sector_count : Nat)
    (h1 : 1 ≤ sector_count) (h2 : sector_count < 2 ^ 23) :
    (get_empty_file_allocation_table sector_count).data.length = sector_count * 512 ∧
    (get_empty_file_allocation_table sector_count).data
      = 0xf0 :: 0xff :: 0xff :: List.replicate (sector_count * 512 - 3) 0 ∧
    (get_empty_file_allocation_table sector_count).out_of_range = false ∧
    (get_empty_file_allocation_table sector_count).data[0]? = some 0xf0 ∧
    (get_empty_file_allocation_table sector_count).data[1]? = some 0xff ∧
    (get_empty_file_allocation_table sector_count).data[2]? = some 0xff ∧
    (∀ i, 3 ≤ i → i < sector_count * 512 →
      (get_empty_file_allocation_table sector_count).data[i]? = some 0) ∧
    (get_empty_file_allocation_table 9).data.length = 4608 := by
  rw [get_empty_file_allocation_table_eq sector_count h1 h2]
  refine ⟨?_, rfl, rfl, rfl, rfl, ?_, ?_, file_allocation_table_9_length⟩
  · simp only [List.length_cons, List.length_replicate]
    omega
  · exact List.getElem?_cons_succ.trans (List.getElem?_cons_succ.trans List.getElem?_cons_zero)
  · intro i h3 hi
    obtain ⟨j, rfl⟩ : ∃ j, i = j + 1 + 1 + 1 := ⟨i - 3, by omega⟩
    simp only [List.getElem?_cons_succ]
    exact List.getElem?_replicate_of_lt (by omega)

/-- C3 at `sector_count = 9`. -/
theorem get_empty_file_allocation_table_shape_witness :
    1 ≤ 9 ∧ 9 < 2 ^ 23 ∧
    (get_empty_file_allocation_table 9).data
      = 0xf0 :: 0xff :: 0xff :: List.replicate (9 * 512 - 3) 0 :=
  ⟨by decide, by decide,
    (get_empty_file_allocation_table_shape 9 (by decide) (by decide)).2.1⟩

theorem default_boot_sector_bytes :
    get_default_boot_sector.data.length = 512 ∧
    get_default_boot_sector.data[510]? = some 0x55 ∧
    get_default_boot_sector.data[511]? = some 0xaa ∧
    (∀ i, i < 510 → get_default_boot_sector.data[i]? = some 0) ∧
    get_default_boot_sector.out_of_range = false := by
  rw [get_default_boot_sector_eq]
  have hl : (List.replicate 510 (0 : Nat)).length = 510 := List.length_replicate _ _
  refine ⟨?_, ?_, ?_, ?_, rfl⟩
  · simp only [List.length_append, List.length_replicate, List.length_cons, List.length_nil]
  · rw [List.getElem?_append_right (by rw [hl]), hl]
    rfl
  · rw [List.getElem?_append_right (by rw [hl]; decide), hl]
    rfl
  · intro i hi
    rw [List.getElem?_append_left (by rw [hl]; exact hi)]
    exact List.getElem?_replicate_of_lt hi

/-- C4: `get_default_boot_sector` returns exactly 512 bytes; byte 510 is `0x55`, byte 511 is
`0xAA` and every byte at an index 0..509 is zero. -/
theorem get_default_boot_sector_shape :
    get_default_boot_sector.data.length = 512 ∧
    get_default_boot_sector.data[510]? = some 0x55 ∧
    get_default_boot_sector.data[511]? = some 0xaa ∧
    (∀ i, i < 510 → get_default_boot_sector.data[i]? = some 0) ∧
    get_default_boot_sector.out_of_range = false :=
  default_boot_sector_bytes

theorem basic_istream_read_whole (src : List Nat) (s : ByteVector) :
    basic_istream_read src s 0 s.data.length
      = ⟨src.take s.data.length ++ s.data.drop (min s.data.length src.length),
          s.out_of_range⟩ := by
  have h := basic_istream_read_splice s.data.length src [] s.data [] s.out_of_range rfl
  simpa using h

theorem load_boot_sector_eq (contents : List Nat) (boot_sector : ByteVector)
    (hlen : boot_sector.data.length = 512) :
    load_boot_sector (some contents) boot_sector
      = ⟨contents.take 512 ++ boot_sector.data.drop (min contents.length 512),
          boot_sector.out_of_range⟩ := by
  show basic_istream_read contents boot_sector 0 boot_sector.data.length = _
  rw [basic_istream_read_whole, hlen, Nat.min_comm]

/-- C5: loading a custom boot sector from a byte source of length `n` into the 512-byte boot
sector buffer (the `-b=` path of `output_boot_sector`) overwrites exactly the bytes
`0..min(n,512)-1` with the first `min(n,512)` source bytes and leaves the bytes
`min(n,512)..511` as they were; the buffer keeps its 512 bytes. In particular a 3-byte source
leaves bytes 3..511 unchanged, so the signature `0x55, 0xAA` of the default boot sector
survives. -/
theorem load_boot_sector_short_read (contents : List Nat) (boot_sector : ByteVector)
    (hlen : boot_sector.data.length = 512) :
    (load_boot_sector (some contents) boot_sector).data.length = 512 ∧
    (load_boot_sector (some contents) boot_sector).data
      = contents.take 512 ++ boot_sector.data.drop (min contents.length 512) ∧
    (∀ i, i < min contents.length 512 →
      (load_boot_sector (some contents) boot_sector).data[i]? = contents[i]?) ∧
    (∀ i, min contents.length 512 ≤ i → i < 512 →
      (load_boot_sector (some contents) boot_sector).data[i]? = boot_sector.data[i]?) ∧
    (load_boot_sector (some contents) boot_sector).out_of_range = boot_sector.out_of_range ∧
    (contents.length = 3 → ∀ i, 3 ≤ i → i < 512 →
      (load_boot_sector (some contents) boot_sector).data[i]? = boot_sector.data[i]?) := by
  have heq := load_boot_sector_eq contents boot_sector hlen
  have htl : (contents.take 512).length = min contents.length 512 := by
    rw [List.length_take, Nat.min_comm]
  have hleft : ∀ i, i < min contents.length 512 →
      (contents.take 512 ++ boot_sector.data.drop (min contents.length 512))[i]?
        = contents[i]? := by
    intro i hi
    rw [List.getElem?_append_left (by rw [htl]; exact hi)]
    exact List.getElem?_take_of_lt (by omega)
  have hright : ∀ i, min contents.length 512 ≤ i → i < 512 →
      (contents.take 512 ++ boot_sector.data.drop (min contents.length 512))[i]?
        = boot_sector.data[i]? := by
    intro i hi _
    rw [List.getElem?_append_right (by rw [htl]; exact hi), htl, List.getElem?_drop]
    congr 1
    omega
  rw [heq]
  refine ⟨?_, rfl, hleft, hright, rfl, ?_⟩
  · simp only [List.length_append, List.length_take, List.length_drop, hlen]
    omega
  · intro h3 i hi hi2
    exact hright i (by omega) hi2

/-- C5 at the 3-byte source `0xEB, 0x3C, 0x90` read over the default boot sector: the
signature at 510..511 survives. -/
theorem load_boot_sector_short_read_witness :
    get_default_boot_sector.data.length = 512 ∧
    (load_boot_sector (some [0xeb, 0x3c, 0x90]) get_default_boot_sector).data[510]?
      = some 0x55 ∧
    (load_boot_sector (some [0xeb, 0x3c, 0x90]) get_default_boot_sector).data[511]?
      = some 0xaa :=
  ⟨default_boot_sector_bytes.1,
    ((load_boot_sector_short_read [0xeb, 0x3c, 0x90] get_default_boot_sector
      default_boot_sector_bytes.1).2.2.2.2.2 rfl 510 (by decide) (by decide)).trans
      default_boot_sector_bytes.2.1,
    ((load_boot_sector_short_read [0xeb, 0x3c, 0x90] get_default_boot_sector
      default_boot_sector_bytes.1).2.2.2.2.2 rfl 511 (by decide) (by decide)).trans
      default_boot_sector_bytes.2.2.1⟩

/-! ### Assembly without a size check -/

theorem vector_store_length (v : ByteVector) (i x : Nat) :
    (vector_store v i x).data.length = v.data.length := by
  unfold vector_store
  split <;> simp

theorem get_empty_file_allocation_table_length (sector_count : Nat) :
    (get_empty_file_allocation_table sector_count).data.length
      = (sector_count * 512) % 2 ^ 32 := by
  simp only [get_empty_file_allocation_table, vector_store_length, vector_new,
    List.length_replicate, u32_mul, bytes_per_sector]

/-- C8, refuted as stated: for `sector_count = 2^23 + 1` the product `sector_count * 512`
overflows 32 bits, and both functions return a buffer of 512 bytes, the wrapped product, instead
of failing. -/
theorem size_overflow_not_detected :
    8388609 < 2 ^ 32 ∧ 2 ^ 32 ≤ 8388609 * 512 ∧ (8388609 * 512) % 2 ^ 32 = 512 ∧
    get_empty_file_allocation_table 8388609
      = ⟨0xf0 :: 0xff :: 0xff :: List.replicate 509 0, false⟩ ∧
    (get_empty_file_allocation_table 8388609).data.length = 512 ∧
    get_empty_root_directory 8388609 = ⟨List.replicate 512 0, false⟩ := by
  have hw : u32_mul 8388609 bytes_per_sector = 512 := by decide
  have hf : get_empty_file_allocation_table 8388609
      = ⟨0xf0 :: 0xff :: 0xff :: List.replicate 509 0, false⟩ := by
    unfold get_empty_file_allocation_table
    simp only [hw]
    exact marker_stores 512 (by decide)
  refine ⟨by decide, by decide, by decide, hf, ?_, ?_⟩
  · rw [get_empty_file_allocation_table_length]
    decide
  · unfold get_empty_root_directory
    simp only [hw, vector_new]

/-- C8, amended: `get_empty_file_allocation_table` and `get_empty_root_directory` have no
`SizeOverflow` failure; the size is computed in 32 bits. For every 32-bit `sector_count` whose
wrapped product `(sector_count * 512) mod 2^32` is at least 3 (so that the three marker bytes
lie inside the buffer), `get_empty_file_allocation_table` returns a buffer of exactly that many
bytes, `0xF0, 0xFF, 0xFF` followed by zeros, and `get_empty_root_directory` returns that many
zero bytes; when the multiplication overflows, that length is the wrapped product. -/
theorem builders_wrap_size (sector_count : Nat) (h : sector_count < 2 ^ 32)
    (h3 : 3 ≤ (sector_count * 512) % 2 ^ 32) :
    get_empty_file_allocation_table sector_count
      = ⟨0xf0 :: 0xff :: 0xff :: List.replicate ((sector_count * 512) % 2 ^ 32 - 3) 0,
          false⟩ ∧
    (get_empty_file_allocation_table sector_count).data.length
      = (sector_count * 512) % 2 ^ 32 ∧
    get_empty_root_directory sector_count
      = ⟨List.replicate ((sector_count * 512) % 2 ^ 32) 0, false⟩ ∧
    (get_empty_root_directory sector_count).data.length = (sector_count * 512) % 2 ^ 32 := by
  have _ := h
  refine ⟨marker_stores _ h3, get_empty_file_allocation_table_length sector_count, rfl, ?_⟩
  simp only [get_empty_root_directory, vector_new, List.length_replicate, u32_mul,
    bytes_per_sector]

/-- C8, amended, at `sector_count = 2^23 + 1`, where the product wraps to 512. -/
theorem builders_wrap_size_witness :
    8388609 < 2 ^ 32 ∧ 3 ≤ (8388609 * 512) % 2 ^ 32 ∧
    (get_empty_file_allocation_table 8388609).data.length = (8388609 * 512) % 2 ^ 32 ∧
    (get_empty_root_directory 8388609).data.length = (8388609 * 512) % 2 ^ 32 :=
  ⟨by decide, by decide,
    (builders_wrap_size 8388609 (by decide) (by decide)).2.1,
    (builders_wrap_size 8388609 (by decide) (by decide)).2.2.2⟩

end WriteImage

namespace PartitionInfo

/-! ## The partition table reader: claims -/

theorem mem_entry_addresses (start index a : Nat) :
    a ∈ entry_addresses start index ↔ ∃ k, k < 16 ∧ start + 16 * index + k = a := by
  simp [entry_addresses, sizeof_Partition_table_entry]

theorem mem_entry_bytes (buffer : List Nat) (start index : Nat) (x : Option Nat) :
    x ∈ entry_bytes buffer start index ↔
      ∃ k, k < 16 ∧ buffer[start + 16 * index + k]? = x := by
  simp [entry_bytes, entry_addresses, sizeof_Partition_table_entry]

theorem printed_indices (sectors : List (Option Nat) → Nat)
    (entry : Nat → List (Option Nat)) (sector_size : Nat) :
    (output_partition_table_info sectors entry sector_size).map Report.index = [0, 1, 2, 3] := by
  rw [output_partition_table_info_eq]
  rfl

theorem tmain_success (bits : Nat) (sectors : List (Option Nat) → Nat) (hr : Int)
    (buffer : List Nat) (hhr : 0 ≤ hr) :
    _tmain bits sectors hr 512 buffer
      = ⟨0, output_partition_table_info sectors
          (entry_bytes buffer (table_start bits 512)) 512, none⟩ := by
  simp [_tmain, hhr]

theorem tmain_failure (bits : Nat) (sectors : List (Option Nat) → Nat) (hr : Int)
    (bytes_to_read : Nat) (buffer : List Nat) (h : ¬ (0 ≤ hr ∧ bytes_to_read = 512)) :
    (_tmain bits sectors hr bytes_to_read buffer).printed = [] ∧
    (_tmain bits sectors hr bytes_to_read buffer).error_level = 1 := by
  unfold _tmain
  by_cases hhr : 0 ≤ hr
  · have hb : ¬ (512 = bytes_to_read) := fun e => h ⟨hhr, e.symm⟩
    simp [hhr, hb]
  · simp only [hhr, if_false]
    split_ifs <;> exact ⟨rfl, rfl⟩

/-- C2: for a 512-byte sector, with 4 partition table entries of 16 bytes each, the table start
computed in `_tmain` is `512 - 2 - 4*16 = 446` without unsigned underflow (for `size_t` of 32 or
64 bits), the loop of `output_partition_table_info` visits exactly the entries 0..3, every byte
read for entry `i` lies in `[446 + 16*i, 446 + 16*i + 16)`, so that all reads are inside the
512-byte buffer, and the table ends at offset 510, where the 2-byte signature begins. -/
theorem partition_table_reads_in_bounds (bits : Nat) (sectors : List (Option Nat) → Nat)
    (hr : Int) (buffer : List Nat)
    (hbits : bits = 32 ∨ bits = 64) (hhr : 0 ≤ hr) (hlen : buffer.length = 512) :
    table_start bits 512 = 446 ∧
    table_start bits 512 + sizeof_Partition_table_entry * partition_table_entry_count + 2
      = 512 ∧
    (_tmain bits sectors hr 512 buffer).printed.map Report.index = [0, 1, 2, 3] ∧
    (∀ r ∈ (_tmain bits sectors hr 512 buffer).printed,
      r.entry = entry_bytes buffer 446 r.index) ∧
    (∀ i, i < 4 → ∀ a ∈ entry_addresses (table_start bits 512) i,
      446 + 16 * i ≤ a ∧ a < 446 + 16 * i + 16 ∧ a < 510) ∧
    (∀ i, i < 4 → entry_addresses (table_start bits 512) i = List.range' (446 + 16 * i) 16) ∧
    (∀ i, i < 4 → ∀ x ∈ entry_bytes buffer (table_start bits 512) i, x ≠ none) ∧
    (∀ a ∈ entry_addresses (table_start bits 512) 3, a < 510) ∧
    509 ∈ entry_addresses (table_start bits 512) 3 := by
  have hts := table_start_512 bits hbits
  rw [tmain_success bits sectors hr buffer hhr, hts]
  refine ⟨rfl, rfl, printed_indices _ _ _, ?_, ?_, ?_, ?_, ?_, ?_⟩
  · intro r hr
    rw [output_partition_table_info_eq] at hr
    simp only [List.mem_cons, List.mem_singleton, List.not_mem_nil, or_false] at hr
    rcases hr with rfl | rfl | rfl | rfl <;> rfl
  · intro i hi a ha
    obtain ⟨k, hk, rfl⟩ := (mem_entry_addresses _ _ _).mp ha
    omega
  · intro i _
    rw [List.range'_eq_map_range]
    rfl
  · intro i hi x hx
    obtain ⟨k, hk, rfl⟩ := (mem_entry_bytes _ _ _ _).mp hx
    rw [List.getElem?_eq_getElem (by omega)]
    exact Option.some_ne_none _
  · intro a ha
    obtain ⟨k, hk, rfl⟩ := (mem_entry_addresses _ _ _).mp ha
    omega
  · exact (mem_entry_addresses _ _ _).mpr ⟨15, by decide, rfl⟩

/-- C2 at a sector of 512 zero bytes, with `size_t` of 64 bits. -/
theorem partition_table_reads_in_bounds_witness :
    (64 = 32 ∨ 64 = 64) ∧ (0 : Int) ≤ 0 ∧ (List.replicate 512 0).length = 512 ∧
    table_start 64 512 = 446 ∧
    (_tmain 64 (fun _ => 0) 0 512 (List.replicate 512 0)).printed.map Report.index
      = [0, 1, 2, 3] :=
  ⟨Or.inr rfl, le_refl 0, List.length_replicate 512 0,
    (partition_table_reads_in_bounds 64 (fun _ => 0) 0 (List.replicate 512 0)
      (Or.inr rfl) (le_refl 0) (List.length_replicate 512 0)).1,
    (partition_table_reads_in_bounds 64 (fun _ => 0) 0 (List.replicate 512 0)
      (Or.inr rfl) (le_refl 0) (List.length_replicate 512 0)).2.2.1⟩

/-- C6, refuted as stated: a sector of 512 zero bytes does not end in `0x55, 0xAA`, yet for it
the program prints the four partition entries, writes no diagnostic and returns exit code 0. -/
theorem boot_signature_not_checked :
    (List.replicate 512 0).length = 512 ∧
    (List.replicate 512 0)[510]? = some 0 ∧
    (List.replicate 512 0)[511]? = some 0 ∧
    (_tmain 64 (fun _ => 0) 0 512 (List.replicate 512 0)).printed.map Report.index
      = [0, 1, 2, 3] ∧
    (_tmain 64 (fun _ => 0) 0 512 (List.replicate 512 0)).error_level = 0 ∧
    (_tmain 64 (fun _ => 0) 0 512 (List.replicate 512 0)).diagnostic = none := by
  rw [tmain_success 64 (fun _ => 0) 0 (List.replicate 512 0) (le_refl 0)]
  exact ⟨List.length_replicate 512 0, List.getElem?_replicate_of_lt (by decide),
    List.getElem?_replicate_of_lt (by decide), printed_indices _ _ _, rfl, rfl⟩

/-- C6, amended: the partition table reader does not check the boot signature and never reports
`NotABootSector`. For every 512-byte sector that was read successfully, whatever its final two
bytes are, the program prints the four partition entries 0..3, each read from inside the sector,
writes no diagnostic and returns exit code 0. -/
theorem tmain_ignores_boot_signature (bits : Nat) (sectors : List (Option Nat) → Nat)
    (hr : Int) (buffer : List Nat) (hhr : 0 ≤ hr) (hlen : buffer.length = 512) :
    (_tmain bits sectors hr 512 buffer).printed.map Report.index = [0, 1, 2, 3] ∧
    (∀ r ∈ (_tmain bits sectors hr 512 buffer).printed,
      r.entry = entry_bytes buffer (table_start bits 512) r.index) ∧
    (bits = 32 ∨ bits = 64 →
      ∀ r ∈ (_tmain bits sectors hr 512 buffer).printed, ∀ x ∈ r.entry, x ≠ none) ∧
    (_tmain bits sectors hr 512 buffer).error_level = 0 ∧
    (_tmain bits sectors hr 512 buffer).diagnostic = none := by
  rw [tmain_success bits sectors hr buffer hhr]
  have hent : ∀ r ∈ output_partition_table_info sectors
      (entry_bytes buffer (table_start bits 512)) 512,
      r.index < 4 ∧ r.entry = entry_bytes buffer (table_start bits 512) r.index := by
    intro r hr
    rw [output_partition_table_info_eq] at hr
    simp only [List.mem_cons, List.mem_singleton, List.not_mem_nil, or_false] at hr
    rcases hr with rfl | rfl | rfl | rfl <;> exact ⟨by dsimp only; omega, rfl⟩
  refine ⟨printed_indices _ _ _, fun r hr => (hent r hr).2, ?_, rfl, rfl⟩
  intro hbits r hr x hx
  rw [(hent r hr).2, table_start_512 bits hbits] at hx
  obtain ⟨k, hk, rfl⟩ := (mem_entry_bytes _ _ _ _).mp hx
  have := (hent r hr).1
  rw [List.getElem?_eq_getElem (by omega)]
  exact Option.some_ne_none _

/-- C6, amended, at a successfully read sector of 512 zero bytes. -/
theorem tmain_ignores_boot_signature_witness :
    (0 : Int) ≤ 0 ∧ (List.replicate 512 0).length = 512 ∧
    (_tmain 64 (fun _ => 0) 0 512 (List.replicate 512 0)).error_level = 0 :=
  ⟨le_refl 0, List.length_replicate 512 0,
    (tmain_ignores_boot_signature 64 (fun _ => 0) 0 (List.replicate 512 0) (le_refl 0)
      (List.length_replicate 512 0)).2.2.2.1⟩

theorem slice_reads (buffer : List Nat) (n : Nat) :
    ∀ first, first + n ≤ buffer.length →
      (List.range' first n).map (fun a => buffer[a]?)
        = ((buffer.drop first).take n).map some := by
  induction n with
  | zero => intro first _; rfl
  | succ n ih =>
    intro first h
    have hlt : first < buffer.length := by omega
    rw [List.range'_succ, List.map_cons, ih (first + 1) (by omega),
      List.drop_eq_getElem_cons hlt, List.take_succ_cons, List.map_cons,
      List.getElem?_eq_getElem hlt]

theorem entry_bytes_slice (buffer : List Nat) (index : Nat) (hlen : buffer.length = 512)
    (hi : index < 4) :
    entry_bytes buffer 446 index = ((buffer.drop (446 + 16 * index)).take 16).map some := by
  rw [← slice_reads buffer 16 (446 + 16 * index) (by omega), List.range'_eq_map_range]
  simp only [entry_bytes, entry_addresses, sizeof_Partition_table_entry, List.map_map]

/-- C9: the program extracts and prints partition entries and returns exit code 0 if and only if
the sector read succeeded and the number of bytes read equals `sector_size` (512); when the read
fails or the byte count differs from 512 it prints no entries and returns exit code 1. On
success (for `size_t` of 32 or 64 bits and the 512-byte sector buffer) what is printed are
exactly the four entries 0..3, entry `i` extracted from the 16 bytes of the sector at offset
`446 + 16*i`, each with the size `part_size` of its field `sectors`, and no diagnostic. -/
theorem tmain_exit_code (bits : Nat) (sectors : List (Option Nat) → Nat)
    (hr : Int) (bytes_to_read : Nat) (buffer : List Nat) :
    (((_tmain bits sectors hr bytes_to_read buffer).printed.map Report.index = [0, 1, 2, 3] ∧
        (_tmain bits sectors hr bytes_to_read buffer).error_level = 0)
      ↔ (0 ≤ hr ∧ bytes_to_read = 512)) ∧
    (((_tmain bits sectors hr bytes_to_read buffer).printed = [] ∧
        (_tmain bits sectors hr bytes_to_read buffer).error_level = 1)
      ↔ ¬ (0 ≤ hr ∧ bytes_to_read = 512)) ∧
    ((bits = 32 ∨ bits = 64) → 0 ≤ hr → bytes_to_read = 512 → buffer.length = 512 →
      (_tmain bits sectors hr bytes_to_read buffer).printed
        = [⟨0, ((buffer.drop 446).take 16).map some,
              part_size (sectors (((buffer.drop 446).take 16).map some)) 512⟩,
           ⟨1, ((buffer.drop 462).take 16).map some,
              part_size (sectors (((buffer.drop 462).take 16).map some)) 512⟩,
           ⟨2, ((buffer.drop 478).take 16).map some,
              part_size (sectors (((buffer.drop 478).take 16).map some)) 512⟩,
           ⟨3, ((buffer.drop 494).take 16).map some,
              part_size (sectors (((buffer.drop 494).take 16).map some)) 512⟩] ∧
      (_tmain bits sectors hr bytes_to_read buffer).diagnostic = none) := by
  refine ⟨?_, ?_, ?_⟩
  · by_cases h : 0 ≤ hr ∧ bytes_to_read = 512
    · obtain ⟨hhr, rfl⟩ := h
      rw [tmain_success bits sectors hr buffer hhr]
      simp [hhr, printed_indices]
    · have hf := tmain_failure bits sectors hr bytes_to_read buffer h
      simp [hf.1, h]
  · by_cases h : 0 ≤ hr ∧ bytes_to_read = 512
    · obtain ⟨hhr, rfl⟩ := h
      rw [tmain_success bits sectors hr buffer hhr, output_partition_table_info_eq]
      simp [hhr]
    · have hf := tmain_failure bits sectors hr bytes_to_read buffer h
      simp [hf.1, hf.2, h]
  · intro hbits hhr hbytes hlen
    subst hbytes
    rw [tmain_success bits sectors hr buffer hhr, output_partition_table_info_eq,
      table_start_512 bits hbits,
      entry_bytes_slice buffer 0 hlen (by decide), entry_bytes_slice buffer 1 hlen (by decide),
      entry_bytes_slice buffer 2 hlen (by decide), entry_bytes_slice buffer 3 hlen (by decide)]
    exact ⟨rfl, rfl⟩

/-- C9 at a successfully read sector of 512 bytes `0x11`, with `size_t` of 64 bits and the field
`sectors` read as 0: the four entries printed are the four 16-byte slices of the sector. -/
theorem tmain_exit_code_witness :
    (64 = 32 ∨ 64 = 64) ∧ (0 : Int) ≤ 0 ∧ (List.replicate 512 0x11).length = 512 ∧
    (_tmain 64 (fun _ => 0) 0 512 (List.replicate 512 0x11)).printed
      = [⟨0, (((List.replicate 512 0x11).drop 446).take 16).map some,
            part_size 0 512⟩,
         ⟨1, (((List.replicate 512 0x11).drop 462).take 16).map some,
            part_size 0 512⟩,
         ⟨2, (((List.replicate 512 0x11).drop 478).take 16).map some,
            part_size 0 512⟩,
         ⟨3, (((List.replicate 512 0x11).drop 494).take 16).map some,
            part_size 0 512⟩] :=
  ⟨Or.inr rfl, le_refl 0, List.length_replicate 512 0x11,
    ((tmain_exit_code 64 (fun _ => 0) 0 512 (List.replicate 512 0x11)).2.2
      (Or.inr rfl) (le_refl 0) rfl (List.length_replicate 512 0x11)).1⟩

/-- C10: for every 32-bit sector count `s` and 32-bit `sector_size` `z` (in particular 512), the
partition size computed in `output_partition_table_info` as `static_cast<uint64_t>(s) * z` is
the exact product `s * z`: the 64-bit multiplication never wraps, `s * z < 2^64`. So every
printed size is the exact product, whenever the field `sectors` holds a 32-bit value. -/
theorem part_size_exact (s z : Nat) (hs : s < 2 ^ 32) (hz : z < 2 ^ 32) :
    part_size s z = s * z ∧ s * z < 2 ^ 64 ∧ part_size s 512 = s * 512 ∧
    (∀ (sectors : List (Option Nat) → Nat) (entry : Nat → List (Option Nat)),
      (∀ e, sectors e < 2 ^ 32) →
      ∀ r ∈ output_partition_table_info sectors entry z,
        r.part_size = sectors r.entry * z) := by
  have hmul : ∀ a b : Nat, a < 2 ^ 32 → b < 2 ^ 32 → a * b < 2 ^ 64 := by
    intro a b ha hb
    have : a * b < 2 ^ 32 * 2 ^ 32 := Nat.mul_lt_mul'' ha hb
    simpa using this
  have hex : ∀ a b : Nat, a < 2 ^ 32 → b < 2 ^ 32 → part_size a b = a * b := by
    intro a b ha hb
    exact Nat.mod_eq_of_lt (hmul a b ha hb)
  refine ⟨hex s z hs hz, hmul s z hs hz, hex s 512 hs (by decide), ?_⟩
  intro sectors entry hfield r hr
  rw [output_partition_table_info_eq] at hr
  simp only [List.mem_cons, List.mem_singleton, List.not_mem_nil, or_false] at hr
  rcases hr with rfl | rfl | rfl | rfl <;> exact hex _ _ (hfield _) hz

/-- C10 at the largest 32-bit sector count and `sector_size = 512`. -/
theorem part_size_exact_witness :
    4294967295 < 2 ^ 32 ∧ 512 < 2 ^ 32 ∧ part_size 4294967295 512 = 4294967295 * 512 :=
  ⟨by decide, by decide, (part_size_exact 4294967295 512 (by decide) (by decide)).1⟩

end PartitionInfo
